import Mathlib

/-!
Verification of the parcel model (src/parcel.py) against its natural-language
specification.

The embedding below translates the Python source into Lean definitions:

* configuration dictionaries become typed structures (`AerosolMode`,
  `SpectrumSpec`, `Params`); the purely structural checks of
  `_arguments_checking` (presence of keys, list-ness, int-ness) are enforced
  by the types, while all numeric checks are translated literally and in
  source order;
* the external `libcloudphxx.common` thermodynamic helpers (`common.T`,
  `common.p_vs`, `common.rhod`, `common.th_std2dry`, `common.th_dry2std`,
  `common.p_hydro`, `common.p`, the constants `eps` and `g`, and the real
  power used for `th_0`) are out of scope of the repository and are modelled
  as an abstract interface `Common`; the external Lagrangian microphysics
  engine is modelled as an abstract per-tick update `Engine` of the shared
  `th_d`, `r_v`, `rhod` buffers (the only state the engine can mutate through
  the `step_sync`/`step_async` contract);
* exact rational arithmetic stands in for Python floats in the integration
  loop, and real arithmetic (with `Real.exp`, `Real.log`, `Real.sqrt`,
  `Real.pi`) is used for the lognormal densities and logarithmic bin edges;
* the run is modelled in the chemistry-disabled configuration
  (`chem_dsl = chem_dsc = chem_rct = False`, the source default), in which
  every chemistry branch of the source is a no-op;
* Python control effects become data: `parcelRun` returns the list of
  resources acquired (engine handle, output file) together with either a
  classified error (mirroring the `raise` sites and the unguarded
  division `z_max / (w * dt)`) or a `RunOk` record holding, in execution
  order, the `t = 0` output record, the ascent tick outputs, the value of
  `info` persisted by `_save_attrs`, and the holding-phase tick outputs.
-/

namespace Parcel

/-- One named aerosol entry: `{"kappa": .., "mean_r": [..], "gstdev": [..], "n_tot": [..]}`
(src/parcel.py docstring and `_arguments_checking`). -/
structure AerosolMode where
  kappa : ℚ
  mean_r : List ℚ
  gstdev : List ℚ
  n_tot : List ℚ
deriving DecidableEq, Repr

/-- Aqueous-phase chemistry labels (the keys of `_Chem_a_id`, src/parcel.py lines 31-40). -/
inductive ChemA where
  | SO2_a | H2O2_a | O3_a | CO2_a | HNO3_a | NH3_a | H | S_VI
deriving DecidableEq, Repr

/-- A requested per-bin output moment: an integer statistical moment order or a
chemical species identifier (src/parcel.py `_arguments_checking`, lines 514-517). -/
inductive Mom where
  | mom (n : ℤ)
  | chem (s : ChemA)
deriving DecidableEq, Repr

/-- Dry or wet radius selector for a spectrum (`drwt`). -/
inductive Drwt where
  | dry | wet
deriving DecidableEq, Repr

/-- Linear or logarithmic bin spacing for a spectrum (`lnli`). -/
inductive Lnli where
  | lin | log
deriving DecidableEq, Repr

/-- One named output spectrum specification (`out_bin` entry, src/parcel.py docstring). -/
structure SpectrumSpec where
  left : ℚ
  rght : ℚ
  nbin : ℕ
  drwt : Drwt
  lnli : Lnli
  moms : List Mom
deriving DecidableEq, Repr

/-- The pressure profile selector (`pprof` argument; the three valid strings,
src/parcel.py lines 394-407). -/
inductive Pprof where
  | pprof_const_th_rv
  | pprof_const_rhod
  | pprof_piecewise_const_rhod
deriving DecidableEq, Repr

/-- The scalar run options of `parcel()` that the modelled (chemistry-off)
fragment reads, with the source default values (src/parcel.py lines 250-264). -/
structure Params where
  dt : ℚ := 1/10
  z_max : ℚ := 200
  w : ℚ := 1
  T_0 : ℚ := 300
  p_0 : ℚ := 101300
  r_0 : ℚ := -1
  RH_0 : ℚ := -1
  pprof : Pprof := .pprof_piecewise_const_rhod
  outfreq : ℕ := 100
  aerosol : List (String × AerosolMode) :=
    [("ammonium_sulfate", { kappa := 61/100, mean_r := [1/50000000], gstdev := [7/5], n_tot := [60000000] })]
  out_bin : List (String × SpectrumSpec) :=
    [("radii", { left := 1/1000000000, rght := 1/10000, nbin := 1, drwt := .wet, lnli := .log, moms := [.mom 0] })]
  wait : ℕ := 0
deriving DecidableEq, Repr

/-- The classified validation failures raised by `_arguments_checking`
(src/parcel.py lines 449-517); only the numeric checks appear, the structural
ones being enforced by the types of `AerosolMode`, `SpectrumSpec` and `Params`. -/
inductive CfgError where
  | tempBelowFreezing
  | bothR0RH0
  | negativeW
  | kappaNonpos
  | lenMismatch
  | meanRNonpos
  | nTotNonpos
  | gstdevNonpos
  | gstdevOne
  | leftGeRght
deriving DecidableEq, Repr

/-- First element of the list that is `≤ 0`, reported as the given error
(the `mean_r` and `n_tot` loops of `_arguments_checking`, lines 477-482). -/
def findNonpos (e : CfgError) : List ℚ → Option CfgError
  | [] => none
  | x :: rest => if x ≤ 0 then some e else findNonpos e rest

/-- The `gstdev` loop of `_arguments_checking` (lines 483-488): each element is
checked to be positive and then to differ from 1, in that order. -/
def gstdevCheck : List ℚ → Option CfgError
  | [] => none
  | g :: rest =>
    if g ≤ 0 then some .gstdevNonpos
    else if g = 1 then some .gstdevOne
    else gstdevCheck rest

/-- The per-entry aerosol checks of `_arguments_checking` (lines 457-488), in
source order: kappa positivity, list-length consistency, `mean_r` positivity,
`n_tot` positivity, the `gstdev` loop. -/
def modeCheck (m : AerosolMode) : Option CfgError :=
  if m.kappa ≤ 0 then some .kappaNonpos
  else if ¬(m.mean_r.length = m.n_tot.length ∧ m.n_tot.length = m.gstdev.length) then
    some .lenMismatch
  else
    match findNonpos .meanRNonpos m.mean_r with
    | some e => some e
    | none =>
      match findNonpos .nTotNonpos m.n_tot with
      | some e => some e
      | none => gstdevCheck m.gstdev

/-- The loop over aerosol entries of `_arguments_checking` (line 457). -/
def aerosolCheck : List (String × AerosolMode) → Option CfgError
  | [] => none
  | nm :: rest =>
    match modeCheck nm.2 with
    | some e => some e
    | none => aerosolCheck rest

/-- The loop over `out_bin` entries of `_arguments_checking` (lines 490-517);
`left >= rght` is its only numeric check, the rest being type-level. -/
def spectraCheck : List (String × SpectrumSpec) → Option CfgError
  | [] => none
  | nm :: rest =>
    if nm.2.rght ≤ nm.2.left then some .leftGeRght else spectraCheck rest

/-- The body of `_arguments_checking` (src/parcel.py lines 449-517): the
temperature check, the `elif` on simultaneous `r_0`/`RH_0` (evaluated against
the original `opts` values), the vertical-velocity sign check, then the aerosol
and spectrum loops. -/
def argumentsChecking (ps : Params) : Option CfgError :=
  if ps.T_0 < 27315/100 then some .tempBelowFreezing
  else if 0 ≤ ps.r_0 ∧ 0 ≤ ps.RH_0 then some .bothR0RH0
  else if ps.w < 0 then some .negativeW
  else
    match aerosolCheck ps.aerosol with
    | some e => some e
    | none => spectraCheck ps.out_bin

/-- The lognormal density in log-radius of class `lognormal` (src/parcel.py
lines 42-52): `n_tot * exp(-(lnr - log mean_r)^2 / 2 / (log gstdev)^2)
/ log gstdev / sqrt(2 pi)`. -/
noncomputable def lognormal (mean_r gstdev n_tot : ℚ) (lnr : ℝ) : ℝ :=
  (n_tot : ℝ) * Real.exp (-(lnr - Real.log (mean_r : ℝ))^2 / 2 / (Real.log (gstdev : ℝ))^2)
    / Real.log (gstdev : ℝ) / Real.sqrt (2 * Real.pi)

/-- The `sum_of_lognormals.__call__` accumulation (src/parcel.py lines 54-62):
starting from `0.`, add each component lognormal at the given log-radius. -/
noncomputable def sum_of_lognormals (ls : List (ℚ × ℚ × ℚ)) (lnr : ℝ) : ℝ :=
  ls.foldl (fun res l => res + lognormal l.1 l.2.1 l.2.2 lnr) 0

/-- The per-entry list of lognormal parameter triples built by `_micro_init`
(src/parcel.py lines 75-77): one `(mean_r[i], gstdev[i], n_tot[i])` per index
of `mean_r`. -/
def modeLognormals (m : AerosolMode) : List (ℚ × ℚ × ℚ) :=
  (List.range m.mean_r.length).map
    (fun i => (m.mean_r.getD i 0, m.gstdev.getD i 0, m.n_tot.getD i 0))

/-- The `dry_distros` dictionary built by `_micro_init` (src/parcel.py lines
73-78): a fold over the aerosol entries in insertion order, each performing the
assignment `dry_distros[kappa] = sum_of_lognormals(...)` (which overwrites any
earlier entry stored under the same kappa). -/
noncomputable def dry_distros (aerosol : List (String × AerosolMode)) : ℚ → Option (ℝ → ℝ) :=
  aerosol.foldl
    (fun d nm => fun k =>
      if k = nm.2.kappa then some (sum_of_lognormals (modeLognormals nm.2)) else d k)
    (fun _ => none)

/-- Evaluation of the built distribution for a kappa class at a log-radius
(0 when no distribution was stored for that kappa). -/
noncomputable def dryDistroAt (aerosol : List (String × AerosolMode)) (k : ℚ) (lnr : ℝ) : ℝ :=
  match dry_distros aerosol k with
  | some f => f lnr
  | none => 0

/-- Modelled from the spec: the composite distribution the specification
describes for a kappa class, namely the pointwise sum of the per-mode lognormal
densities over ALL entries whose kappa equals `k` (including modes coming from
distinct named entries). Used only to compare the specified behaviour with
`dry_distros` as built by the source. -/
noncomputable def specDistroAtKappa (aerosol : List (String × AerosolMode)) (k : ℚ) (lnr : ℝ) : ℝ :=
  ((aerosol.filter (fun nm => decide (nm.2.kappa = k))).map
    (fun nm => sum_of_lognormals (modeLognormals nm.2) lnr)).sum

/-- The last aerosol entry (in insertion order) whose kappa equals `k`; this is
the entry whose dictionary assignment survives in `dry_distros`. -/
def lastKappaMatch (aerosol : List (String × AerosolMode)) (k : ℚ) : Option AerosolMode :=
  ((aerosol.filter (fun nm => decide (nm.2.kappa = k))).getLast?).map (fun nm => nm.2)

/-- The log-spaced bin increment `dlnr = (log rght - log left) / nbin`
(src/parcel.py line 196). -/
noncomputable def dlnr (left rght : ℚ) (nbin : ℕ) : ℝ :=
  (Real.log (rght : ℝ) - Real.log (left : ℝ)) / (nbin : ℝ)

/-- The log-spaced bin edge `allbins[i] = exp(log left + i * dlnr)`
(src/parcel.py line 197). -/
noncomputable def allbins (left rght : ℚ) (nbin : ℕ) (i : ℕ) : ℝ :=
  Real.exp (Real.log (left : ℝ) + (i : ℝ) * dlnr left rght nbin)

/-- The full edge array `allbins` of length `nbin + 1` (src/parcel.py line 197,
`np.arange(nbin+1)`). -/
noncomputable def allbinsList (left rght : ℚ) (nbin : ℕ) : List ℝ :=
  (List.range (nbin + 1)).map (allbins left rght nbin)

/-- The linearly spaced bin width `dr = (rght - left) / nbin`
(src/parcel.py line 201). -/
def dr_lin (left rght : ℚ) (nbin : ℕ) : ℚ := (rght - left) / (nbin : ℚ)

/-- The linearly spaced left bin edge `left + i * dr` (src/parcel.py line 202). -/
def r_lin (left rght : ℚ) (nbin : ℕ) (i : ℕ) : ℚ :=
  left + (i : ℚ) * dr_lin left rght nbin

/-- The external `libcloudphxx.common` thermodynamic interface consumed by the
source (out of scope of this repository): `common.T`, `common.p_vs`,
`common.rhod`, `common.th_std2dry`, `common.th_dry2std`, `common.p_hydro`,
`common.p`, the constants `eps` and `g`, and the real power
`T_0 * (p_1000 / p_0) ** (R_d / c_pd)` that yields `th_0`
(src/parcel.py line 352), abstracted as `th_0_of`. -/
structure Common where
  T : ℚ → ℚ → ℚ
  p_vs : ℚ → ℚ
  rhod : ℚ → ℚ → ℚ → ℚ
  th_std2dry : ℚ → ℚ → ℚ
  th_dry2std : ℚ → ℚ → ℚ
  p_hydro : ℚ → ℚ → ℚ → ℚ → ℚ → ℚ
  p : ℚ → ℚ → ℚ → ℚ
  th_0_of : ℚ → ℚ → ℚ
  eps : ℚ
  g : ℚ

/-- The external Lagrangian microphysics engine, abstracted as the per-tick
update of the shared `(th_d, r_v, rhod)` buffers performed by
`step_sync`/`step_async` (the only state of the source the engine mutates in
the chemistry-off configuration, src/parcel.py lines 109-133). -/
abbrev Engine := ℕ → ℚ × ℚ × ℚ → ℚ × ℚ × ℚ

/-- The mutable simulation state dictionary (src/parcel.py lines 354-360):
`T` and `RH` start as `None` and are written by `_stats`. -/
structure PState where
  t : ℚ
  z : ℚ
  r_v : ℚ
  p : ℚ
  th_d : ℚ
  rhod : ℚ
  T : Option ℚ
  RH : Option ℚ
deriving DecidableEq, Repr

/-- The relative humidity currently stored in the state (0 before `_stats` has
ever run; every use in the model is after a `_stats` call). -/
def rhOf (s : PState) : ℚ := s.RH.getD 0

/-- The `_stats` function (src/parcel.py lines 143-146): derive `T` and `RH`
from the state, and update the running maximum `info["RH_max"]`. -/
def stats (c : Common) (s : PState) (rh : ℚ) : PState × ℚ :=
  let T := c.T s.th_d s.rhod
  let RH := s.p * s.r_v / (s.r_v + c.eps) / c.p_vs T
  ({ s with T := some T, RH := some RH }, max rh RH)

/-- Python `int()` applied to a rational: truncation toward zero
(used for `nt = int(z_max / (w * dt))`, src/parcel.py line 353). -/
def pyInt (q : ℚ) : ℤ := if 0 ≤ q then ⌊q⌋ else ⌈q⌉

/-- The water-content defaulting of `parcel()` (src/parcel.py lines 342-347):
`r_0 = 0.022` when both `r_0` and `RH_0` are negative, the `RH_0`-derived
value when only `RH_0` is given, otherwise the supplied `r_0`. -/
def effectiveR0 (c : Common) (ps : Params) : ℚ :=
  if ps.r_0 < 0 ∧ ps.RH_0 < 0 then 22/1000
  else if ps.r_0 < 0 ∧ 0 ≤ ps.RH_0 then
    c.eps * ps.RH_0 * c.p_vs ps.T_0 / (ps.p_0 - ps.RH_0 * c.p_vs ps.T_0)
  else ps.r_0

/-- The initial state dictionary (src/parcel.py lines 354-360). -/
def initState (c : Common) (ps : Params) : PState :=
  let r0 := effectiveR0 c ps
  let th0 := c.th_0_of ps.T_0 ps.p_0
  { t := 0, z := 0, r_v := r0, p := ps.p_0,
    th_d := c.th_std2dry th0 r0, rhod := c.rhod ps.p_0 th0 r0,
    T := none, RH := none }

/-- The relative humidity derived by the `_stats` call inside `_micro_init`
(src/parcel.py line 104), checked against 1 at line 105. -/
def initRH (c : Common) (ps : Params) : ℚ := rhOf (stats c (initState c ps) 0).1

/-- The function `_p_hydro_const_rho` (src/parcel.py lines 242-244):
`p - rho * g * dz`. -/
def p_hydro_const_rho (c : Common) (dz pres rho : ℚ) : ℚ := pres - rho * c.g * dz

/-- One ascent tick before the microphysics call (src/parcel.py lines 390-423):
advance `z` and `t`, then apply the selected pressure profile and re-derive the
dry-air density. -/
def ascentTick (c : Common) (ps : Params) (th0 r0 : ℚ) (it : ℕ) (s : PState) : PState :=
  let z := s.z + ps.w * ps.dt
  let t := (it : ℚ) * ps.dt
  match ps.pprof with
  | .pprof_const_th_rv =>
    let ph := c.p_hydro z th0 r0 0 ps.p_0
    let rhod := c.rhod ph th0 r0
    let p := c.p rhod s.r_v (c.T s.th_d rhod)
    { s with z := z, t := t, rhod := rhod, p := p }
  | .pprof_const_rhod =>
    let p := p_hydro_const_rho c z ps.p_0 (113/100)
    let rhod := c.rhod p (c.th_dry2std s.th_d s.r_v) s.r_v
    { s with z := z, t := t, p := p, rhod := rhod }
  | .pprof_piecewise_const_rhod =>
    let p := p_hydro_const_rho c (ps.w * ps.dt) s.p s.rhod
    let rhod := c.rhod p (c.th_dry2std s.th_d s.r_v) s.r_v
    { s with z := z, t := t, p := p, rhod := rhod }

/-- One holding-phase tick before the microphysics call (src/parcel.py line
442): only `t` is advanced, `z`, `p` and `rhod` are left unchanged. -/
def holdTick (dt : ℚ) (it : ℕ) (s : PState) : PState := { s with t := (it : ℚ) * dt }

/-- The record of one executed tick: its index `it`, the state after the
microphysics step and `_stats`, the value of `info["RH_max"]` at that point,
and the output record index `it / outfreq` when `it mod outfreq == 0`
(src/parcel.py lines 432-435 and 445-447). -/
structure TickOut where
  it : ℕ
  stateAfter : PState
  rhMaxAfter : ℚ
  recIdx : Option ℕ
deriving DecidableEq, Repr

/-- The shared per-tick body of the ascent and holding loops (src/parcel.py
lines 385-435 and 441-447): the phase-specific update `tick`, the engine step
on the shared buffers, `_stats`, and the cadence-gated output record. -/
def loopTicks (c : Common) (eng : Engine) (f : ℕ) (tick : ℕ → PState → PState) :
    List ℕ → PState → ℚ → PState × ℚ × List TickOut
  | [], s, rh => (s, rh, [])
  | it :: rest, s, rh =>
    let s1 := tick it s
    let e := eng it (s1.th_d, s1.r_v, s1.rhod)
    let s2 := { s1 with th_d := e.1, r_v := e.2.1, rhod := e.2.2 }
    let st := stats c s2 rh
    let res := loopTicks c eng f tick rest st.1 st.2
    (res.1, res.2.1,
      { it := it, stateAfter := st.1, rhMaxAfter := st.2,
        recIdx := if it % f = 0 then some (it / f) else none } :: res.2.2)

/-- The resources `parcel()` acquires, in acquisition order: the engine handle
(`lgrngn.factory` + `micro.init`, src/parcel.py lines 97-101) and the output
archive file (`_output_init`, line 179). -/
inductive Resource where
  | engineHandle
  | outputFile
deriving DecidableEq, Repr

/-- The classified fatal outcomes of `parcel()`: a validation failure raised by
`_arguments_checking`, the unguarded `ZeroDivisionError` in
`nt = int(z_max / (w * dt))` (line 353), and the supersaturation check of
`_micro_init` (line 105). -/
inductive RunError where
  | config (e : CfgError)
  | zeroDiv
  | supersaturated
deriving DecidableEq, Repr

/-- The observable outcome of a completed run, in execution order: the
`RH_max` value right after `_micro_init`, the unconditional `t = 0` output
record (line 382), the ascent tick outputs (lines 385-435), the `info` data
persisted by `_save_attrs(fout, info)` together with the persisted
configuration (lines 437-438), the holding-phase tick outputs (lines 440-447),
and the final value of `info["RH_max"]` when the run ends. -/
structure RunOk where
  initRHmax : ℚ
  record0 : PState
  ascent : List TickOut
  savedRHmax : ℚ
  savedConfig : Params
  hold : List TickOut
  finalRHmax : ℚ
deriving DecidableEq, Repr

/-- The ascent tick count `nt = int(z_max / (w * dt))` (src/parcel.py line 353),
as the number of iterations of `range(1, nt+1)`. -/
def ntOf (ps : Params) : ℕ := (pyInt (ps.z_max / (ps.w * ps.dt))).toNat

/-- The state and `RH_max` right after the `_stats` call of `_micro_init`
(src/parcel.py line 104, starting from `info["RH_max"] = 0`, line 366). -/
def initStats (c : Common) (ps : Params) : PState × ℚ := stats c (initState c ps) 0

/-- The ascent loop `for it in range(1, nt+1)` (src/parcel.py lines 385-435). -/
def ascentRes (c : Common) (eng : Engine) (ps : Params) : PState × ℚ × List TickOut :=
  loopTicks c eng ps.outfreq
    (ascentTick c ps (c.th_0_of ps.T_0 ps.p_0) (effectiveR0 c ps))
    (List.range' 1 (ntOf ps)) (initStats c ps).1 (initStats c ps).2

/-- The holding-phase index list: `range(nt+1, nt+wait)` when `wait != 0`
(src/parcel.py lines 440-441), which iterates over
`nt+1, ..., nt+wait-1` — `wait - 1` indices. -/
def holdTickList (ps : Params) : List ℕ :=
  if ps.wait ≠ 0 then List.range' (ntOf ps + 1) (ps.wait - 1) else []

/-- The holding loop (src/parcel.py lines 440-447), continuing from the state
and `RH_max` left by the ascent. -/
def holdRes (c : Common) (eng : Engine) (ps : Params) : PState × ℚ × List TickOut :=
  loopTicks c eng ps.outfreq (holdTick ps.dt) (holdTickList ps)
    (ascentRes c eng ps).1 (ascentRes c eng ps).2.1

/-- The payload of a successfully completing run (the body of `parcel()` from
line 352 on, given that no exception fires): the post-`_micro_init` state (also
written as record 0), `nt` ascent ticks, the attribute save of `info` (whose
`RH_max` is the value reached at the end of the ascent, lines 437-438), then
the holding loop. -/
def parcelOk (c : Common) (eng : Engine) (ps : Params) : RunOk :=
  { initRHmax := (initStats c ps).2, record0 := (initStats c ps).1,
    ascent := (ascentRes c eng ps).2.2, savedRHmax := (ascentRes c eng ps).2.1,
    savedConfig := ps,
    hold := (holdRes c eng ps).2.2, finalRHmax := (holdRes c eng ps).2.1 }

/-- The whole of `parcel()` (src/parcel.py lines 250-447): water-content
defaulting, `_arguments_checking`, the tick-count division, `_micro_init` with
its supersaturation check, output-file creation, the `t = 0` record, the
ascent loop, the attribute save, and the holding loop. The first component
lists the external resources acquired before the run ended. -/
def parcelRun (c : Common) (eng : Engine) (ps : Params) :
    List Resource × Except RunError RunOk :=
  match argumentsChecking ps with
  | some e => ([], .error (.config e))
  | none =>
    if ps.w * ps.dt = 0 then ([], .error .zeroDiv)
    else if 1 < initRH c ps then ([.engineHandle], .error .supersaturated)
    else ([.engineHandle, .outputFile], .ok (parcelOk c eng ps))

/-- The persisted `RH_max` attribute of a run outcome, when the run completed. -/
def savedRHmaxOf : Except RunError RunOk → Option ℚ
  | .ok r => some r.savedRHmax
  | .error _ => none

/-- The final in-memory `info["RH_max"]` of a run outcome, when the run
completed. -/
def finalRHmaxOf : Except RunError RunOk → Option ℚ
  | .ok r => some r.finalRHmax
  | .error _ => none

/-- The tick indices executed by the holding phase, when the run completed. -/
def holdItsOf : Except RunError RunOk → Option (List ℕ)
  | .ok r => some (r.hold.map (fun o => o.it))
  | .error _ => none

/-- The sequence of `info["RH_max"]` values observed over the run: after
`_micro_init`, then after each ascent and holding tick. -/
def rhSeq (r : RunOk) : List ℚ :=
  r.initRHmax :: (r.ascent ++ r.hold).map (fun o => o.rhMaxAfter)

/-- A concrete instantiation of the external thermodynamic interface, used for
the closed evaluation theorems. -/
def cEx : Common :=
  { T := fun th _ => th, p_vs := fun _ => 1000000, rhod := fun _ _ _ => 1,
    th_std2dry := fun a _ => a, th_dry2std := fun a _ => a,
    p_hydro := fun _ _ _ _ p0 => p0, p := fun _ _ _ => 1,
    th_0_of := fun t0 _ => t0, eps := 1, g := 0 }

/-- A concrete engine that never changes the shared buffers. -/
def engId : Engine := fun _ b => b

/-- A concrete engine that raises the water-vapour mixing ratio at tick 2
(a holding-phase tick in the runs below), so that `RH_max` keeps growing after
the ascent has ended. -/
def engC3 : Engine := fun it b => if it = 2 then (b.1, 10, b.2.2) else b

/-- A concrete valid run with one ascent tick and `wait = 2`. -/
def psC3 : Params :=
  { dt := 1, z_max := 1, w := 1, p_0 := 1, r_0 := 1/2, outfreq := 1,
    aerosol := [], out_bin := [], wait := 2 }

/-- The end-to-end example of the specification: `dt = 0.1`, `z_max = 2`,
`w = 1`, `outfreq = 1` (with a small `p_0` so the initial humidity check
passes under `cEx`). -/
def psC4 : Params :=
  { dt := 1/10, z_max := 2, w := 1, p_0 := 1, r_0 := 1/2, outfreq := 1,
    aerosol := [], out_bin := [] }

/-- A concrete run whose initial relative humidity under `cEx` exceeds 1
(`RH = p_0 * r_0 / (r_0 + eps) / p_vs = 10^9 / (3 * 10^6) > 1`). -/
def psC6 : Params :=
  { p_0 := 1000000000, r_0 := 1/2, aerosol := [], out_bin := [] }

/-- A concrete valid run using the `pprof_const_rhod` pressure profile. -/
def psC8 : Params :=
  { dt := 1, z_max := 3, w := 1, p_0 := 1, r_0 := 1/2, outfreq := 1,
    pprof := .pprof_const_rhod, aerosol := [], out_bin := [] }

/-- A concrete, otherwise valid run with `w = 0`. -/
def psC10 : Params :=
  { w := 0, aerosol := [], out_bin := [] }

/-- An aerosol mode with a `gstdev` element equal to 1 (otherwise valid). -/
def mBad : AerosolMode :=
  { kappa := 61/100, mean_r := [1/50000000], gstdev := [1], n_tot := [60000000] }

/-- A concrete configuration containing `mBad`, used to exercise the
validator. -/
def psC5 : Params :=
  { aerosol := [("bad", mBad)], out_bin := [] }

/-- First of two distinct named aerosol entries sharing kappa 1. -/
def mA : AerosolMode := { kappa := 1, mean_r := [1], gstdev := [2], n_tot := [1] }

/-- Second of two distinct named aerosol entries sharing kappa 1. -/
def mB : AerosolMode := { kappa := 1, mean_r := [1], gstdev := [2], n_tot := [2] }

/-- A valid aerosol configuration with two distinct named entries of equal
kappa. -/
def aerC1 : List (String × AerosolMode) := [("a", mA), ("b", mB)]

/-- Helper: `_stats` never touches `t`, `z` or `p`. -/
theorem stats_fst_t (c : Common) (s : PState) (rh : ℚ) : (stats c s rh).1.t = s.t := rfl

/-- Helper: the `z` component is preserved by `_stats`. -/
theorem stats_fst_z (c : Common) (s : PState) (rh : ℚ) : (stats c s rh).1.z = s.z := rfl

/-- Helper: the `p` component is preserved by `_stats`. -/
theorem stats_fst_p (c : Common) (s : PState) (rh : ℚ) : (stats c s rh).1.p = s.p := rfl

/-- Helper: the updated `RH_max` is the maximum of the previous value and the
newly derived `RH`. -/
theorem stats_snd_eq (c : Common) (s : PState) (rh : ℚ) :
    (stats c s rh).2 = max rh (rhOf (stats c s rh).1) := rfl

/-- Helper: `_stats` never decreases `RH_max`. -/
theorem stats_le_snd (c : Common) (s : PState) (rh : ℚ) : rh ≤ (stats c s rh).2 :=
  le_max_left _ _

/-- Helper: after `_stats`, `RH_max` dominates the current `RH`. -/
theorem stats_rh_le_snd (c : Common) (s : PState) (rh : ℚ) :
    rhOf (stats c s rh).1 ≤ (stats c s rh).2 := le_max_right _ _

/-- Helper: the executed tick indices of a loop are exactly the fed index list. -/
theorem loopTicks_map_it (c : Common) (eng : Engine) (f : ℕ) (tick : ℕ → PState → PState) :
    ∀ (its : List ℕ) (s : PState) (rh : ℚ),
      ((loopTicks c eng f tick its s rh).2.2).map (fun o => o.it) = its := by
  intro its
  induction its with
  | nil => intro s rh; rfl
  | cons it rest ih => intro s rh; simp only [loopTicks, List.map_cons, ih]

/-- Helper: the output records written by a loop are exactly the indices
divisible by the output cadence, at record index `it / outfreq`. -/
theorem loopTicks_filterMap_recIdx (c : Common) (eng : Engine) (f : ℕ)
    (tick : ℕ → PState → PState) :
    ∀ (its : List ℕ) (s : PState) (rh : ℚ),
      ((loopTicks c eng f tick its s rh).2.2).filterMap (fun o => o.recIdx)
        = (its.filter (fun it => decide (it % f = 0))).map (fun it => it / f) := by
  intro its
  induction its with
  | nil => intro s rh; rfl
  | cons it rest ih =>
    intro s rh
    by_cases h : it % f = 0 <;> simp [loopTicks, List.filter_cons, h, ih]

/-- Helper: along a loop, the successive `RH_max` values form a `≤`-chain
starting from the incoming value. -/
theorem loopTicks_chain (c : Common) (eng : Engine) (f : ℕ) (tick : ℕ → PState → PState) :
    ∀ (its : List ℕ) (s : PState) (rh : ℚ),
      List.Chain' (· ≤ ·)
        (rh :: ((loopTicks c eng f tick its s rh).2.2).map (fun o => o.rhMaxAfter)) := by
  intro its
  induction its with
  | nil => intro s rh; simp [loopTicks]
  | cons it rest ih =>
    intro s rh
    simp only [loopTicks, List.map_cons]
    exact List.Chain'.cons (stats_le_snd _ _ _) (ih _ _)

/-- Helper: the final `RH_max` of a loop is the last of the per-tick values
(or the incoming value when no tick ran). -/
theorem loopTicks_snd_eq_getLastD (c : Common) (eng : Engine) (f : ℕ)
    (tick : ℕ → PState → PState) :
    ∀ (its : List ℕ) (s : PState) (rh : ℚ),
      (loopTicks c eng f tick its s rh).2.1
        = (((loopTicks c eng f tick its s rh).2.2).map (fun o => o.rhMaxAfter)).getLastD rh := by
  intro its
  induction its with
  | nil => intro s rh; rfl
  | cons it rest ih =>
    intro s rh
    simp only [loopTicks, List.map_cons, List.getLastD_cons, ih]

/-- Helper: the final `RH_max` of a loop is the running maximum of the incoming
value and the per-tick `RH` values. -/
theorem loopTicks_snd_eq_foldl (c : Common) (eng : Engine) (f : ℕ)
    (tick : ℕ → PState → PState) :
    ∀ (its : List ℕ) (s : PState) (rh : ℚ),
      (loopTicks c eng f tick its s rh).2.1
        = ((loopTicks c eng f tick its s rh).2.2).foldl
            (fun a o => max a (rhOf o.stateAfter)) rh := by
  intro its
  induction its with
  | nil => intro s rh; rfl
  | cons it rest ih =>
    intro s rh
    simp only [loopTicks, List.foldl_cons]
    exact ih _ _

/-- Helper: after every tick of a loop, `RH_max` dominates the freshly derived
`RH` of that tick. -/
theorem loopTicks_rh_le (c : Common) (eng : Engine) (f : ℕ) (tick : ℕ → PState → PState) :
    ∀ (its : List ℕ) (s : PState) (rh : ℚ),
      ∀ o ∈ (loopTicks c eng f tick its s rh).2.2, rhOf o.stateAfter ≤ o.rhMaxAfter := by
  intro its
  induction its with
  | nil => intro s rh o ho; simp [loopTicks] at ho
  | cons it rest ih =>
    intro s rh o ho
    simp only [loopTicks, List.mem_cons] at ho
    rcases ho with ho | ho
    · subst ho; exact stats_rh_le_snd _ _ _
    · exact ih _ _ o ho

/-- Helper: a chain starting at `a` through `l1` continues into `l2` when `l2`
chains from the last value of `l1`. -/
theorem chain_le_append (l2 : List ℚ) :
    ∀ (l1 : List ℚ) (a : ℚ), List.Chain' (· ≤ ·) (a :: l1) →
      List.Chain' (· ≤ ·) (l1.getLastD a :: l2) →
      List.Chain' (· ≤ ·) (a :: (l1 ++ l2)) := by
  intro l1
  induction l1 with
  | nil => intro a _ h2; simpa using h2
  | cons b l1 ih =>
    intro a h1 h2
    rw [List.chain'_cons] at h1
    rw [List.getLastD_cons] at h2
    exact List.Chain'.cons h1.1 (ih b h1.2 h2)

/-- Helper: a successfully completing `parcelRun` returns exactly the
`parcelOk` payload. -/
theorem parcelRun_ok_eq (c : Common) (eng : Engine) (ps : Params) (r : RunOk)
    (h : (parcelRun c eng ps).2 = .ok r) : r = parcelOk c eng ps := by
  unfold parcelRun at h
  cases hch : argumentsChecking ps with
  | some e => rw [hch] at h; simp at h
  | none =>
    rw [hch] at h
    by_cases h2 : ps.w * ps.dt = 0
    · rw [if_pos h2] at h; simp at h
    · rw [if_neg h2] at h
      by_cases h3 : 1 < initRH c ps
      · rw [if_pos h3] at h; simp at h
      · rw [if_neg h3] at h
        simp only [Except.ok.injEq] at h
        exact h.symm

/-- Helper: the `gstdev` loop reports an error whenever 1 occurs in the list. -/
theorem gstdevCheck_isSome_of_one : ∀ l : List ℚ, (1 : ℚ) ∈ l → (gstdevCheck l).isSome := by
  intro l
  induction l with
  | nil => intro h; simp at h
  | cons g rest ih =>
    intro h
    by_cases hg0 : g ≤ 0
    · simp [gstdevCheck, hg0]
    · by_cases hg1 : g = 1
      · subst hg1; simp [gstdevCheck, hg0]
      · have h1 : (1 : ℚ) ∈ rest := by
          rcases List.mem_cons.mp h with h1 | h1
          · exact absurd h1.symm hg1
          · exact h1
        simpa [gstdevCheck, hg0, hg1] using ih h1

/-- Helper: the per-entry check reports an error whenever some `gstdev` element
equals 1. -/
theorem modeCheck_isSome_of_one (m : AerosolMode) (h : (1 : ℚ) ∈ m.gstdev) :
    (modeCheck m).isSome := by
  unfold modeCheck
  split
  · rfl
  · split
    · rfl
    · split
      · rfl
      · split
        · rfl
        · exact gstdevCheck_isSome_of_one m.gstdev h

/-- Helper: the aerosol loop reports an error whenever some entry has a
`gstdev` element equal to 1. -/
theorem aerosolCheck_isSome_of_one :
    ∀ (aer : List (String × AerosolMode)) (nm : String) (m : AerosolMode),
      (nm, m) ∈ aer → (1 : ℚ) ∈ m.gstdev → (aerosolCheck aer).isSome := by
  intro aer
  induction aer with
  | nil => intro nm m h _; simp at h
  | cons hd rest ih =>
    intro nm m hmem h1
    cases hmc : modeCheck hd.2 with
    | some e => simp [aerosolCheck, hmc]
    | none =>
      rcases List.mem_cons.mp hmem with he | he
      · have hs : (modeCheck hd.2).isSome := by
          rw [← he]
          exact modeCheck_isSome_of_one m h1
        rw [hmc] at hs
        simp at hs
      · simpa [aerosolCheck, hmc] using ih nm m he h1

/-- Helper: the spectrum loop reports an error whenever some entry has
`left >= rght`. -/
theorem spectraCheck_isSome_of_leftGeRght :
    ∀ (sps : List (String × SpectrumSpec)) (nm : String) (sp : SpectrumSpec),
      (nm, sp) ∈ sps → sp.rght ≤ sp.left → (spectraCheck sps).isSome := by
  intro sps
  induction sps with
  | nil => intro nm sp h _; simp at h
  | cons hd rest ih =>
    intro nm sp hmem hle
    by_cases hc : hd.2.rght ≤ hd.2.left
    · simp [spectraCheck, hc]
    · rcases List.mem_cons.mp hmem with he | he
      · exact absurd (by rw [← he] at hc; exact hc) (by simpa using hle)
      · simpa [spectraCheck, hc] using ih nm sp he hle

/-- Helper: `sum_of_lognormals` starting from an arbitrary accumulator. -/
theorem foldl_lognormal_eq (lnr : ℝ) :
    ∀ (ls : List (ℚ × ℚ × ℚ)) (a : ℝ),
      ls.foldl (fun res l => res + lognormal l.1 l.2.1 l.2.2 lnr) a
        = a + (ls.map (fun l => lognormal l.1 l.2.1 l.2.2 lnr)).sum := by
  intro ls
  induction ls with
  | nil => intro a; simp
  | cons l rest ih =>
    intro a
    simp only [List.foldl_cons, List.map_cons, List.sum_cons, ih]
    ring

/-- Helper: the accumulation of `sum_of_lognormals.__call__` equals the sum of
the component lognormal densities. -/
theorem sum_of_lognormals_eq_sum (ls : List (ℚ × ℚ × ℚ)) (lnr : ℝ) :
    sum_of_lognormals ls lnr = (ls.map (fun l => lognormal l.1 l.2.1 l.2.2 lnr)).sum := by
  unfold sum_of_lognormals
  rw [foldl_lognormal_eq]
  ring

/-- Helper: the dictionary built by the `_micro_init` fold keeps, for each
kappa, exactly the contribution of the last entry (in insertion order) whose
kappa matches. -/
theorem dry_distros_eq_lastKappaMatch (aerosol : List (String × AerosolMode)) (k : ℚ) :
    dry_distros aerosol k
      = (lastKappaMatch aerosol k).map (fun m => sum_of_lognormals (modeLognormals m)) := by
  induction aerosol using List.reverseRecOn with
  | nil => rfl
  | append_singleton as a ih =>
    by_cases hk : k = a.2.kappa
    · simp only [dry_distros, List.foldl_append, List.foldl_cons, List.foldl_nil]
      rw [if_pos hk]
      simp only [lastKappaMatch, List.filter_append]
      have : List.filter (fun nm => decide (nm.2.kappa = k)) [a] = [a] := by
        simp [List.filter, hk.symm]
      rw [this, List.getLast?_concat]
      rfl
    · simp only [dry_distros, List.foldl_append, List.foldl_cons, List.foldl_nil]
      rw [if_neg hk]
      have hfa : List.filter (fun nm => decide (nm.2.kappa = k)) [a] = [] := by
        have hne : ¬(a.2.kappa = k) := fun h => hk (Eq.symm h)
        simp [List.filter, hne]
      simp only [lastKappaMatch, List.filter_append, hfa, List.append_nil]
      exact ih

/-- Helper: Python truncation agrees with the floor on non-negative rationals. -/
theorem pyInt_eq_floor (q : ℚ) (h : 0 ≤ q) : pyInt q = ⌊q⌋ := if_pos h

/-- Helper: under the `pprof_const_rhod` profile, the state after the tick with
index `it` carries `z = it * (w * dt)` and `p = p_0 - 1.13 * g * z`, for any
engine behaviour. -/
theorem loopTicks_const_rhod_zp (c : Common) (eng : Engine) (ps : Params) (th0 r0 : ℚ)
    (f : ℕ) (hp : ps.pprof = .pprof_const_rhod) :
    ∀ (n k : ℕ) (s : PState) (rh : ℚ), s.z = (k : ℚ) * (ps.w * ps.dt) →
      ((loopTicks c eng f (ascentTick c ps th0 r0) (List.range' (k + 1) n) s rh).2.2).map
          (fun o => (o.stateAfter.z, o.stateAfter.p))
        = (List.range' (k + 1) n).map
            (fun (it : ℕ) => ((it : ℚ) * (ps.w * ps.dt),
              ps.p_0 - 113/100 * c.g * ((it : ℚ) * (ps.w * ps.dt)))) := by
  intro n
  induction n with
  | zero => intro k s rh _; rfl
  | succ n ih =>
    intro k s rh hz
    have hzround : (ascentTick c ps th0 r0 (k + 1) s).z
        = ((k + 1 : ℕ) : ℚ) * (ps.w * ps.dt) := by
      simp only [ascentTick, hp]
      rw [hz]; push_cast; ring
    have hpround : (ascentTick c ps th0 r0 (k + 1) s).p
        = ps.p_0 - 113/100 * c.g * (((k + 1 : ℕ) : ℚ) * (ps.w * ps.dt)) := by
      simp only [ascentTick, hp, p_hydro_const_rho]
      rw [hz]; push_cast; ring
    simp only [List.range'_succ, loopTicks, List.map_cons, List.cons.injEq]
    constructor
    · rw [stats_fst_z, stats_fst_p]
      exact Prod.ext hzround hpround
    · exact ih (k + 1) _ _ (by rw [stats_fst_z]; exact hzround)

/-- Claim C5: the configuration validator raises an exception — before the
microphysics engine is initialized and before the output file is created (no
resource is acquired) — for every configuration with an aerosol mode whose
`gstdev` contains 1, or a spectrum with `left >= rght`, or both `r_0 >= 0` and
`RH_0 >= 0` specified, or `T_0 < 273.15`. -/
theorem C5_validator_rejects (c : Common) (eng : Engine) (ps : Params)
    (h : (∃ nm m, (nm, m) ∈ ps.aerosol ∧ (1 : ℚ) ∈ m.gstdev)
      ∨ (∃ nm sp, (nm, sp) ∈ ps.out_bin ∧ sp.rght ≤ sp.left)
      ∨ (0 ≤ ps.r_0 ∧ 0 ≤ ps.RH_0)
      ∨ ps.T_0 < 27315/100) :
    ∃ e, parcelRun c eng ps = ([], .error (.config e)) := by
  have hs : (argumentsChecking ps).isSome := by
    unfold argumentsChecking
    by_cases hT : ps.T_0 < 27315/100
    · simp [hT]
    · by_cases hB : 0 ≤ ps.r_0 ∧ 0 ≤ ps.RH_0
      · simp [hT, hB]
      · by_cases hW : ps.w < 0
        · simp [hT, hB, hW]
        · rw [if_neg hT, if_neg hB, if_neg hW]
          cases ha : aerosolCheck ps.aerosol with
          | some e => simp
          | none =>
            rcases h with h | h | h | h
            · obtain ⟨nm, m, hmem, h1⟩ := h
              have hsom := aerosolCheck_isSome_of_one ps.aerosol nm m hmem h1
              rw [ha] at hsom
              simp at hsom
            · obtain ⟨nm, sp, hmem, hle⟩ := h
              exact spectraCheck_isSome_of_leftGeRght ps.out_bin nm sp hmem hle
            · exact absurd h hB
            · exact absurd h hT
  obtain ⟨e, he⟩ := Option.isSome_iff_exists.mp hs
  refine ⟨e, ?_⟩
  simp only [parcelRun, he]

/-- Claim C5 witness: the validator rejects the concrete configuration `psC5`,
whose single aerosol mode has `gstdev = [1]`, before any resource is acquired. -/
theorem C5_validator_rejects_witness :
    (1 : ℚ) ∈ mBad.gstdev ∧
    ∃ e, parcelRun cEx engId psC5 = ([], .error (.config e)) :=
  ⟨by norm_num [mBad],
    C5_validator_rejects cEx engId psC5
      (Or.inl ⟨"bad", mBad, by norm_num [psC5], by norm_num [mBad]⟩)⟩

/-- Claim C6: when the relative humidity derived immediately after engine
initialization exceeds 1, the run aborts with the supersaturation exception
after acquiring the engine handle but before the output archive file is
created, so no record 0 is produced. -/
theorem C6_supersaturation_aborts (c : Common) (eng : Engine) (ps : Params)
    (h1 : argumentsChecking ps = none) (h2 : ps.w * ps.dt ≠ 0)
    (h3 : 1 < initRH c ps) :
    parcelRun c eng ps = ([.engineHandle], .error .supersaturated) := by
  simp only [parcelRun, h1, if_neg h2, if_pos h3]

/-- Claim C6 witness: the concrete run `psC6` starts supersaturated under `cEx`
and aborts after engine initialization, without creating the output file. -/
theorem C6_supersaturation_aborts_witness :
    1 < initRH cEx psC6 ∧
    parcelRun cEx engId psC6 = ([.engineHandle], .error .supersaturated) :=
  ⟨by norm_num [initRH, rhOf, stats, initState, effectiveR0, cEx, psC6],
    C6_supersaturation_aborts cEx engId psC6
      (by norm_num [argumentsChecking, aerosolCheck, spectraCheck, psC6])
      (by norm_num [psC6])
      (by norm_num [initRH, rhOf, stats, initState, effectiveR0, cEx, psC6])⟩

/-- Claim C10: with `w = 0` the validator does not object (only `w < 0` is
rejected), and the run then fails with the division-by-zero error raised while
computing the tick count `nt = int(z_max / (w * dt))`, before the engine is
initialized and before any output file is created (no resource is acquired). -/
theorem C10_zero_w_division (c : Common) (eng : Engine) (ps : Params)
    (hw : ps.w = 0) (hchk : argumentsChecking ps = none) :
    parcelRun c eng ps = ([], .error .zeroDiv) := by
  have h0 : ps.w * ps.dt = 0 := by rw [hw]; ring
  simp only [parcelRun, hchk, if_pos h0]

/-- Claim C10 witness: the otherwise-default configuration `psC10` with `w = 0`
passes validation and then dies in the tick-count division, with no resource
acquired. -/
theorem C10_zero_w_division_witness :
    psC10.w = 0 ∧ argumentsChecking psC10 = none ∧
    parcelRun cEx engId psC10 = ([], .error .zeroDiv) :=
  ⟨by norm_num [psC10],
    by norm_num [argumentsChecking, aerosolCheck, spectraCheck, psC10],
    C10_zero_w_division cEx engId psC10 (by norm_num [psC10])
      (by norm_num [argumentsChecking, aerosolCheck, spectraCheck, psC10])⟩

/-- Claim C4: for every completing run with `w > 0`, `dt > 0`, `z_max >= 0` and
a positive output cadence, the ascent performs exactly
`n_ascent = floor(z_max / (w * dt))` ticks, with indices `1 .. n_ascent`;
record 0 is the pre-loop state at `t = 0`, written unconditionally before the
first tick; and the records written during ascent are exactly those of the
tick indices with `it mod outfreq == 0`, at record index `it / outfreq`. -/
theorem C4_ascent_ticks_and_records (c : Common) (eng : Engine) (ps : Params) (r : RunOk)
    (hok : (parcelRun c eng ps).2 = .ok r)
    (hw : 0 < ps.w) (hdt : 0 < ps.dt) (hz : 0 ≤ ps.z_max) (_hf : 0 < ps.outfreq) :
    r.record0.t = 0 ∧
    r.ascent.map (fun o => o.it) = List.range' 1 (⌊ps.z_max / (ps.w * ps.dt)⌋.toNat) ∧
    (r.ascent.length : ℤ) = ⌊ps.z_max / (ps.w * ps.dt)⌋ ∧
    r.ascent.filterMap (fun o => o.recIdx)
      = ((List.range' 1 (⌊ps.z_max / (ps.w * ps.dt)⌋.toNat)).filter
          (fun it => decide (it % ps.outfreq = 0))).map (fun it => it / ps.outfreq) := by
  have hq : 0 ≤ ps.z_max / (ps.w * ps.dt) := div_nonneg hz (le_of_lt (mul_pos hw hdt))
  have hnt : ntOf ps = ⌊ps.z_max / (ps.w * ps.dt)⌋.toNat := by
    unfold ntOf
    rw [pyInt_eq_floor _ hq]
  have hmap := loopTicks_map_it c eng ps.outfreq
      (ascentTick c ps (c.th_0_of ps.T_0 ps.p_0) (effectiveR0 c ps))
      (List.range' 1 (ntOf ps)) (initStats c ps).1 (initStats c ps).2
  have hfm := loopTicks_filterMap_recIdx c eng ps.outfreq
      (ascentTick c ps (c.th_0_of ps.T_0 ps.p_0) (effectiveR0 c ps))
      (List.range' 1 (ntOf ps)) (initStats c ps).1 (initStats c ps).2
  rw [parcelRun_ok_eq c eng ps r hok]
  refine ⟨rfl, ?_, ?_, ?_⟩
  · rw [← hnt]
    exact hmap
  · have hlen : (parcelOk c eng ps).ascent.length = ntOf ps := by
      have h2 := congrArg List.length hmap
      rw [List.length_map, List.length_range'] at h2
      exact h2
    rw [hlen, hnt]
    exact Int.toNat_of_nonneg (Int.floor_nonneg.mpr hq)
  · rw [← hnt]
    exact hfm

/-- Claim C4 witness: the run of the specification example (`dt = 0.1`,
`z_max = 2`, `w = 1`, `outfreq = 1`) satisfies the claim, with
`floor(2 / 0.1) = 20` ascent ticks and a record for every tick. -/
theorem C4_ascent_ticks_and_records_witness :
    (parcelOk cEx engId psC4).record0.t = 0 ∧
    (parcelOk cEx engId psC4).ascent.map (fun o => o.it)
      = List.range' 1 (⌊psC4.z_max / (psC4.w * psC4.dt)⌋.toNat) ∧
    ((parcelOk cEx engId psC4).ascent.length : ℤ) = ⌊psC4.z_max / (psC4.w * psC4.dt)⌋ ∧
    (parcelOk cEx engId psC4).ascent.filterMap (fun o => o.recIdx)
      = ((List.range' 1 (⌊psC4.z_max / (psC4.w * psC4.dt)⌋.toNat)).filter
          (fun it => decide (it % psC4.outfreq = 0))).map (fun it => it / psC4.outfreq) :=
  C4_ascent_ticks_and_records cEx engId psC4 (parcelOk cEx engId psC4)
    (by norm_num [parcelRun, argumentsChecking, aerosolCheck, spectraCheck,
      initRH, rhOf, stats, initState, effectiveR0, cEx, psC4])
    (by norm_num [psC4]) (by norm_num [psC4]) (by norm_num [psC4]) (by norm_num [psC4])

/-- Claim C8: in every completing run with `pprof = const_rhod`, the state
after ascent tick `it` carries exactly `z = it * (w * dt)` and
`p = p_0 - 1.13 * g * z`, where `1.13` is the single fixed reference density
used for the whole run; in particular after the first tick the pressure is
`p_0 - 1.13 * g * (w * dt)`. -/
theorem C8_const_rhod_pressure (c : Common) (eng : Engine) (ps : Params) (r : RunOk)
    (hok : (parcelRun c eng ps).2 = .ok r) (hp : ps.pprof = .pprof_const_rhod) :
    r.ascent.map (fun o => (o.stateAfter.z, o.stateAfter.p))
      = (List.range' 1 (ntOf ps)).map
          (fun (it : ℕ) => ((it : ℚ) * (ps.w * ps.dt),
            ps.p_0 - 113/100 * c.g * ((it : ℚ) * (ps.w * ps.dt)))) := by
  rw [parcelRun_ok_eq c eng ps r hok]
  have h0 : (initStats c ps).1.z = ((0 : ℕ) : ℚ) * (ps.w * ps.dt) := by
    simp [initStats, initState, stats]
  exact loopTicks_const_rhod_zp c eng ps (c.th_0_of ps.T_0 ps.p_0) (effectiveR0 c ps)
    ps.outfreq hp (ntOf ps) 0 (initStats c ps).1 (initStats c ps).2 h0

/-- Claim C8 witness: the concrete `pprof_const_rhod` run `psC8` satisfies the
per-tick pressure formula. -/
theorem C8_const_rhod_pressure_witness :
    (parcelOk cEx engId psC8).ascent.map (fun o => (o.stateAfter.z, o.stateAfter.p))
      = (List.range' 1 (ntOf psC8)).map
          (fun (it : ℕ) => ((it : ℚ) * (psC8.w * psC8.dt),
            psC8.p_0 - 113/100 * cEx.g * ((it : ℚ) * (psC8.w * psC8.dt)))) :=
  C8_const_rhod_pressure cEx engId psC8 (parcelOk cEx engId psC8)
    (by norm_num [parcelRun, argumentsChecking, aerosolCheck, spectraCheck,
      initRH, rhOf, stats, initState, effectiveR0, cEx, psC8])
    rfl

/-- Claim C7: over every completing run, the `RH_max` values recorded after
initialization and after each ascent and holding tick form a non-decreasing
sequence (`_stats` always takes the maximum of the previous value and the
current `RH`), and at every point the recorded `RH_max` dominates the current
state `RH`. -/
theorem C7_RH_max_monotone (c : Common) (eng : Engine) (ps : Params) (r : RunOk)
    (hok : (parcelRun c eng ps).2 = .ok r) :
    List.Pairwise (· ≤ ·) (rhSeq r) ∧
    (∀ o ∈ r.ascent ++ r.hold, rhOf o.stateAfter ≤ o.rhMaxAfter) ∧
    rhOf r.record0 ≤ r.initRHmax := by
  rw [parcelRun_ok_eq c eng ps r hok]
  have hasc : List.Chain' (· ≤ ·) ((initStats c ps).2 ::
      (ascentRes c eng ps).2.2.map (fun o => o.rhMaxAfter)) :=
    loopTicks_chain c eng ps.outfreq
      (ascentTick c ps (c.th_0_of ps.T_0 ps.p_0) (effectiveR0 c ps))
      (List.range' 1 (ntOf ps)) (initStats c ps).1 (initStats c ps).2
  have hhold : List.Chain' (· ≤ ·) ((ascentRes c eng ps).2.1 ::
      (holdRes c eng ps).2.2.map (fun o => o.rhMaxAfter)) :=
    loopTicks_chain c eng ps.outfreq (holdTick ps.dt)
      (holdTickList ps) (ascentRes c eng ps).1 (ascentRes c eng ps).2.1
  have hlast : (ascentRes c eng ps).2.1
      = ((ascentRes c eng ps).2.2.map (fun o => o.rhMaxAfter)).getLastD (initStats c ps).2 :=
    loopTicks_snd_eq_getLastD c eng ps.outfreq
      (ascentTick c ps (c.th_0_of ps.T_0 ps.p_0) (effectiveR0 c ps))
      (List.range' 1 (ntOf ps)) (initStats c ps).1 (initStats c ps).2
  refine ⟨?_, ?_, ?_⟩
  · have hchain : List.Chain' (· ≤ ·) (rhSeq (parcelOk c eng ps)) := by
      unfold rhSeq
      show List.Chain' (· ≤ ·) ((initStats c ps).2 ::
        ((ascentRes c eng ps).2.2 ++ (holdRes c eng ps).2.2).map (fun o => o.rhMaxAfter))
      rw [List.map_append]
      refine chain_le_append _ _ _ hasc ?_
      rw [← hlast]
      exact hhold
    exact List.chain'_iff_pairwise.mp hchain
  · intro o ho
    rcases List.mem_append.mp ho with ho | ho
    · exact loopTicks_rh_le c eng ps.outfreq _ _ _ _ o ho
    · exact loopTicks_rh_le c eng ps.outfreq _ _ _ _ o ho
  · exact stats_rh_le_snd c (initState c ps) 0

/-- Claim C7 witness: the concrete completing run `psC3` (with a holding
phase) satisfies the monotonicity of `RH_max`. -/
theorem C7_RH_max_monotone_witness :
    List.Pairwise (· ≤ ·) (rhSeq (parcelOk cEx engC3 psC3)) ∧
    (∀ o ∈ (parcelOk cEx engC3 psC3).ascent ++ (parcelOk cEx engC3 psC3).hold,
      rhOf o.stateAfter ≤ o.rhMaxAfter) ∧
    rhOf (parcelOk cEx engC3 psC3).record0 ≤ (parcelOk cEx engC3 psC3).initRHmax :=
  C7_RH_max_monotone cEx engC3 psC3 (parcelOk cEx engC3 psC3)
    (by norm_num [parcelRun, argumentsChecking, aerosolCheck, spectraCheck,
      initRH, rhOf, stats, initState, effectiveR0, cEx, psC3])

/-- Claim C3 (amended): the archive-level attributes (Info, including
`RH_max`, plus the configuration) are persisted right after the ascent loop
and before the holding phase. The persisted `RH_max` is therefore the running
maximum of the post-initialization value and the ascent-tick `RH` values only,
while the end-of-run `RH_max` continues that maximum over the holding ticks;
the two coincide when `wait = 0`, but holding-phase updates are not reflected
in the persisted attribute. -/
theorem C3_attrs_saved_before_hold (c : Common) (eng : Engine) (ps : Params) (r : RunOk)
    (hok : (parcelRun c eng ps).2 = .ok r) :
    r.savedRHmax = r.ascent.foldl (fun a o => max a (rhOf o.stateAfter)) r.initRHmax ∧
    r.finalRHmax = r.hold.foldl (fun a o => max a (rhOf o.stateAfter)) r.savedRHmax ∧
    (ps.wait = 0 → r.finalRHmax = r.savedRHmax) := by
  rw [parcelRun_ok_eq c eng ps r hok]
  refine ⟨?_, ?_, ?_⟩
  · exact loopTicks_snd_eq_foldl c eng ps.outfreq
      (ascentTick c ps (c.th_0_of ps.T_0 ps.p_0) (effectiveR0 c ps))
      (List.range' 1 (ntOf ps)) (initStats c ps).1 (initStats c ps).2
  · exact loopTicks_snd_eq_foldl c eng ps.outfreq (holdTick ps.dt)
      (holdTickList ps) (ascentRes c eng ps).1 (ascentRes c eng ps).2.1
  · intro hw0
    have hempty : holdTickList ps = [] := by simp [holdTickList, hw0]
    show (holdRes c eng ps).2.1 = (ascentRes c eng ps).2.1
    unfold holdRes
    rw [hempty]
    rfl

/-- Claim C3 witness: the amended statement holds on the concrete run `psC3`. -/
theorem C3_attrs_saved_before_hold_witness :
    (parcelOk cEx engC3 psC3).savedRHmax
      = (parcelOk cEx engC3 psC3).ascent.foldl
          (fun a o => max a (rhOf o.stateAfter)) (parcelOk cEx engC3 psC3).initRHmax ∧
    (parcelOk cEx engC3 psC3).finalRHmax
      = (parcelOk cEx engC3 psC3).hold.foldl
          (fun a o => max a (rhOf o.stateAfter)) (parcelOk cEx engC3 psC3).savedRHmax ∧
    (psC3.wait = 0 → (parcelOk cEx engC3 psC3).finalRHmax
      = (parcelOk cEx engC3 psC3).savedRHmax) :=
  C3_attrs_saved_before_hold cEx engC3 psC3 (parcelOk cEx engC3 psC3)
    (by norm_num [parcelRun, argumentsChecking, aerosolCheck, spectraCheck,
      initRH, rhOf, stats, initState, effectiveR0, cEx, psC3])

/-- Claim C3 counterexample: in the concrete run `psC3` (`wait = 2`) with
engine `engC3`, the persisted `RH_max` attribute (saved before the holding
phase) differs from the final value of `info.RH_max` at the end of the whole
run, refuting the claim that the attributes are persisted only after every
tick of the run. -/
theorem C3_attrs_counterexample :
    psC3.wait ≠ 0 ∧
    savedRHmaxOf (parcelRun cEx engC3 psC3).2 = some (1/3000000) ∧
    finalRHmaxOf (parcelRun cEx engC3 psC3).2 = some (1/1100000) ∧
    savedRHmaxOf (parcelRun cEx engC3 psC3).2 ≠ finalRHmaxOf (parcelRun cEx engC3 psC3).2 := by
  have hrun : (parcelRun cEx engC3 psC3).2 = .ok (parcelOk cEx engC3 psC3) := by
    norm_num [parcelRun, argumentsChecking, aerosolCheck, spectraCheck, initRH, rhOf,
      stats, initState, effectiveR0, cEx, psC3]
  have hnt : ntOf psC3 = 1 := by
    norm_num [ntOf, pyInt, psC3]
  have hticks : List.range' 1 (ntOf psC3) = [1] := by rw [hnt]; rfl
  have hhold2 : holdTickList psC3 = [2] := by
    unfold holdTickList
    rw [hnt]
    norm_num [psC3, List.range']
  have hs1 : initStats cEx psC3
      = ({ t := 0, z := 0, r_v := 1/2, p := 1, th_d := 300, rhod := 1,
           T := some 300, RH := some (1/3000000) }, 1/3000000) := by
    norm_num [initStats, initState, stats, effectiveR0, cEx, psC3, max_def]
  have hares1 : (ascentRes cEx engC3 psC3).1
      = { t := 1, z := 1, r_v := 1/2, p := 1, th_d := 300, rhod := 1,
          T := some 300, RH := some (1/3000000) } := by
    unfold ascentRes
    rw [hticks, hs1]
    norm_num [loopTicks, stats, ascentTick, p_hydro_const_rho, cEx, engC3, psC3, max_def]
  have hares2 : (ascentRes cEx engC3 psC3).2.1 = 1/3000000 := by
    unfold ascentRes
    rw [hticks, hs1]
    norm_num [loopTicks, stats, ascentTick, p_hydro_const_rho, cEx, engC3, psC3, max_def]
  have hholdres : (holdRes cEx engC3 psC3).2.1 = 1/1100000 := by
    unfold holdRes
    rw [hhold2, hares1, hares2]
    norm_num [loopTicks, stats, holdTick, cEx, engC3, psC3, max_def]
  have hsf : (parcelOk cEx engC3 psC3).savedRHmax = 1/3000000 ∧
      (parcelOk cEx engC3 psC3).finalRHmax = 1/1100000 := by
    constructor
    · exact hares2
    · exact hholdres
  refine ⟨by norm_num [psC3], ?_, ?_, ?_⟩
  · rw [hrun]
    show some (parcelOk cEx engC3 psC3).savedRHmax = _
    rw [hsf.1]
  · rw [hrun]
    show some (parcelOk cEx engC3 psC3).finalRHmax = _
    rw [hsf.2]
  · rw [hrun]
    show some (parcelOk cEx engC3 psC3).savedRHmax ≠ some (parcelOk cEx engC3 psC3).finalRHmax
    rw [hsf.1, hsf.2]
    norm_num

/-- Claim C2: evaluation at the failing input. In the run `psC3`, with
`wait = 2` and one ascent tick (`nt = 1`), the holding loop
`range(nt + 1, nt + wait)` executes exactly one tick, of index 2 — not the
`wait = 2` ticks (indices 2 and 3) stated by the claim and by the docstring
of the `wait` argument. -/
theorem C2_holding_phase_off_by_one :
    psC3.wait = 2 ∧ ntOf psC3 = 1 ∧
    holdItsOf (parcelRun cEx engC3 psC3).2 = some [2] ∧
    (parcelOk cEx engC3 psC3).hold.length = 1 := by
  have hrun : (parcelRun cEx engC3 psC3).2 = .ok (parcelOk cEx engC3 psC3) := by
    norm_num [parcelRun, argumentsChecking, aerosolCheck, spectraCheck, initRH, rhOf,
      stats, initState, effectiveR0, cEx, psC3]
  have hnt : ntOf psC3 = 1 := by
    norm_num [ntOf, pyInt, psC3]
  have hhold2 : holdTickList psC3 = [2] := by
    unfold holdTickList
    rw [hnt]
    norm_num [psC3, List.range']
  have hmap : (parcelOk cEx engC3 psC3).hold.map (fun o => o.it) = [2] := by
    show (holdRes cEx engC3 psC3).2.2.map (fun o => o.it) = [2]
    unfold holdRes
    rw [loopTicks_map_it, hhold2]
  refine ⟨by norm_num [psC3], hnt, ?_, ?_⟩
  · rw [hrun]
    show some ((parcelOk cEx engC3 psC3).hold.map (fun o => o.it)) = _
    rw [hmap]
  · have := congrArg List.length hmap
    rw [List.length_map] at this
    simpa using this

/-- Claim C1 counterexample: `aerC1` is a valid aerosol configuration whose two
distinct named entries both carry kappa 1, yet the distribution built for
kappa 1 differs (at `ln r = 0`) from the pointwise sum over all modes with
kappa 1: the dictionary assignment of `_micro_init` keeps only the last entry. -/
theorem C1_distribution_counterexample :
    aerosolCheck aerC1 = none ∧
    dryDistroAt aerC1 1 0 ≠ specDistroAtKappa aerC1 1 0 := by
  constructor
  · norm_num [aerosolCheck, modeCheck, findNonpos, gstdevCheck, aerC1, mA, mB]
  · have hr1 : List.range 1 = [0] := rfl
    have h1 : dryDistroAt aerC1 1 0 = lognormal 1 2 2 0 := by
      simp [dryDistroAt, dry_distros, aerC1, mA, mB, modeLognormals,
        sum_of_lognormals, hr1]
    have h2 : specDistroAtKappa aerC1 1 0 = lognormal 1 2 1 0 + lognormal 1 2 2 0 := by
      simp [specDistroAtKappa, aerC1, mA, mB, modeLognormals,
        sum_of_lognormals, hr1, List.filter]
    have hL : 0 < Real.log 2 := Real.log_pos (by norm_num)
    have hS : 0 < Real.sqrt (2 * Real.pi) := Real.sqrt_pos.mpr (by positivity)
    have hform : lognormal 1 2 1 0
        = 1 * Real.exp (-(0 - Real.log 1)^2 / 2 / (Real.log 2)^2) / Real.log 2
          / Real.sqrt (2 * Real.pi) := by
      unfold lognormal
      norm_num
    have hpos : 0 < lognormal 1 2 1 0 := by
      rw [hform]
      have hE := Real.exp_pos (-(0 - Real.log 1)^2 / 2 / (Real.log 2)^2)
      exact div_pos (div_pos (by linarith) hL) hS
    rw [h1, h2]
    intro hcontra
    nlinarith [hpos, hcontra]

/-- Claim C1 (amended): for every aerosol configuration, the distribution
function built for kappa class `k` is the pointwise sum of the lognormal
densities of the modes of the last named entry (in insertion order) whose
kappa equals `k`; modes from earlier distinct named entries sharing that kappa
are overwritten by the dictionary assignment, not summed. -/
theorem C1_distribution_is_last_entry_sum (aer : List (String × AerosolMode)) (k : ℚ)
    (m : AerosolMode) (h : lastKappaMatch aer k = some m) :
    dry_distros aer k = some (sum_of_lognormals (modeLognormals m)) ∧
    ∀ lnr : ℝ, dryDistroAt aer k lnr
      = ((modeLognormals m).map (fun l => lognormal l.1 l.2.1 l.2.2 lnr)).sum := by
  have hd := dry_distros_eq_lastKappaMatch aer k
  rw [h] at hd
  simp only [Option.map_some'] at hd
  refine ⟨hd, ?_⟩
  intro lnr
  simp only [dryDistroAt, hd]
  exact sum_of_lognormals_eq_sum _ _

/-- Claim C1 witness: for `aerC1` and kappa 1, the built distribution is the
lognormal sum of the second entry `mB` alone. -/
theorem C1_distribution_is_last_entry_sum_witness :
    dry_distros aerC1 1 = some (sum_of_lognormals (modeLognormals mB)) ∧
    ∀ lnr : ℝ, dryDistroAt aerC1 1 lnr
      = ((modeLognormals mB).map (fun l => lognormal l.1 l.2.1 l.2.2 lnr)).sum :=
  C1_distribution_is_last_entry_sum aerC1 1 mB
    (by norm_num [lastKappaMatch, aerC1, mA, mB, List.filter, List.getLast?])

/-- Claim C9: for every valid spectrum (`0 < left < rght`, `nbin > 0`), the
derived edge array has exactly `nbin + 1` entries; the logarithmic edges form
a geometric progression (every consecutive ratio equals `exp dlnr`) and the
linear edges an arithmetic progression (every consecutive difference equals
`dr`); and for both spacings the persisted left edge and width satisfy
`r i + dr i = r (i+1)`, `r 0 = left`, and `r (nbin-1) + dr (nbin-1) = rght`. -/
theorem C9_bin_edges (left rght : ℚ) (nbin : ℕ)
    (hl : 0 < left) (hlr : left < rght) (hn : 0 < nbin) :
    (allbinsList left rght nbin).length = nbin + 1 ∧
    (∀ i, allbins left rght nbin (i + 1) / allbins left rght nbin i
      = Real.exp (dlnr left rght nbin)) ∧
    (∀ i, r_lin left rght nbin (i + 1) - r_lin left rght nbin i = dr_lin left rght nbin) ∧
    (∀ i, allbins left rght nbin i
      + (allbins left rght nbin (i + 1) - allbins left rght nbin i)
      = allbins left rght nbin (i + 1)) ∧
    (∀ i, r_lin left rght nbin i + dr_lin left rght nbin = r_lin left rght nbin (i + 1)) ∧
    allbins left rght nbin 0 = (left : ℝ) ∧
    r_lin left rght nbin 0 = left ∧
    allbins left rght nbin (nbin - 1)
      + (allbins left rght nbin (nbin - 1 + 1) - allbins left rght nbin (nbin - 1))
      = (rght : ℝ) ∧
    r_lin left rght nbin (nbin - 1) + dr_lin left rght nbin = rght := by
  have hl' : (0 : ℝ) < (left : ℝ) := by exact_mod_cast hl
  have hr' : (0 : ℝ) < (rght : ℝ) := lt_trans hl' (by exact_mod_cast hlr)
  have hn' : ((nbin : ℕ) : ℝ) ≠ 0 := Nat.cast_ne_zero.mpr (Nat.pos_iff_ne_zero.mp hn)
  have hnq : ((nbin : ℕ) : ℚ) ≠ 0 := Nat.cast_ne_zero.mpr (Nat.pos_iff_ne_zero.mp hn)
  have htop : allbins left rght nbin nbin = (rght : ℝ) := by
    unfold allbins dlnr
    have hc : ((nbin : ℕ) : ℝ) * ((Real.log (rght : ℝ) - Real.log (left : ℝ)) / (nbin : ℝ))
        = Real.log (rght : ℝ) - Real.log (left : ℝ) := by
      field_simp
    rw [hc, show Real.log (left : ℝ) + (Real.log (rght : ℝ) - Real.log (left : ℝ))
      = Real.log (rght : ℝ) by ring]
    exact Real.exp_log hr'
  refine ⟨?_, ?_, ?_, ?_, ?_, ?_, ?_, ?_, ?_⟩
  · simp [allbinsList]
  · intro i
    unfold allbins
    rw [div_eq_iff (Real.exp_ne_zero _), ← Real.exp_add]
    congr 1
    push_cast
    ring
  · intro i
    unfold r_lin
    push_cast
    ring
  · intro i
    ring
  · intro i
    unfold r_lin
    push_cast
    ring
  · unfold allbins
    norm_num
    exact Real.exp_log hl'
  · unfold r_lin
    push_cast
    ring
  · rw [show allbins left rght nbin (nbin - 1)
      + (allbins left rght nbin (nbin - 1 + 1) - allbins left rght nbin (nbin - 1))
      = allbins left rght nbin (nbin - 1 + 1) by ring]
    have h11 : nbin - 1 + 1 = nbin := by omega
    rw [h11]
    exact htop
  · unfold r_lin dr_lin
    have hcast : ((nbin - 1 : ℕ) : ℚ) = ((nbin : ℕ) : ℚ) - 1 := by
      push_cast [Nat.cast_sub hn]
      ring
    rw [hcast]
    field_simp
    ring

/-- Claim C9 witness: the concrete spectrum `left = 1`, `rght = 2`, `nbin = 2`
satisfies all edge relations. -/
theorem C9_bin_edges_witness :
    (allbinsList 1 2 2).length = 2 + 1 ∧
    (∀ i, allbins 1 2 2 (i + 1) / allbins 1 2 2 i = Real.exp (dlnr 1 2 2)) ∧
    (∀ i, r_lin 1 2 2 (i + 1) - r_lin 1 2 2 i = dr_lin 1 2 2) ∧
    (∀ i, allbins 1 2 2 i + (allbins 1 2 2 (i + 1) - allbins 1 2 2 i)
      = allbins 1 2 2 (i + 1)) ∧
    (∀ i, r_lin 1 2 2 i + dr_lin 1 2 2 = r_lin 1 2 2 (i + 1)) ∧
    allbins 1 2 2 0 = ((1 : ℚ) : ℝ) ∧
    r_lin 1 2 2 0 = 1 ∧
    allbins 1 2 2 (2 - 1) + (allbins 1 2 2 (2 - 1 + 1) - allbins 1 2 2 (2 - 1))
      = ((2 : ℚ) : ℝ) ∧
    r_lin 1 2 2 (2 - 1) + dr_lin 1 2 2 = 2 :=
  C9_bin_edges 1 2 2 (by norm_num) (by norm_num) (by norm_num)

end Parcel
